import Mathlib

/-!
Verification of the ocpack asset-resolution and generation pipeline.

Shallow embedding of `pkg/iso/generator.go`, `pkg/catalognew` and `pkg/save`:
pure computations become Lean functions, filesystem effects become explicit
state passing over association-list filesystems or explicit operation traces,
Go `error` returns become `Except`/`Option`.
-/

namespace Ocpack

/-- One node entry of the cluster configuration (`config.toml`): name, MAC and IP,
as used by `generateAgentConfig` via `cp.Name`, `cp.MAC`, `cp.IP`. -/
structure NodeConfig where
  name : String
  mac : String
  ip : String
deriving Repr, DecidableEq

/-- Network section of the cluster configuration (`Cluster.Network.MachineNetwork`). -/
structure NetworkConfig where
  machineNetwork : String
deriving Repr, DecidableEq

/-- The `Cluster` section: control-plane nodes, workers and the network block. -/
structure ClusterNodes where
  controlPlane : List NodeConfig
  worker : List NodeConfig
  network : NetworkConfig
deriving Repr, DecidableEq

/-- The `ClusterInfo` section: cluster name, base domain, OpenShift version. -/
structure ClusterInfoCfg where
  name : String
  domain : String
  openShiftVersion : String
deriving Repr, DecidableEq

/-- The `Registry` section: registry node IP and registry user. -/
structure RegistryCfg where
  ip : String
  registryUser : String
deriving Repr, DecidableEq

/-- The `Bastion` section: bastion node IP. -/
structure BastionCfg where
  ip : String
deriving Repr, DecidableEq

/-- The cluster configuration as used by the ISO generator
(`g.Config.ClusterInfo`, `g.Config.Cluster`, `g.Config.Registry`, `g.Config.Bastion`). -/
structure ClusterConfig where
  clusterInfo : ClusterInfoCfg
  cluster : ClusterNodes
  registry : RegistryCfg
  bastion : BastionCfg
deriving Repr, DecidableEq

/-- Constant `defaultInterface = "ens3"` from `generator.go`. -/
def defaultInterface : String := "ens3"

/-- One host entry of the agent configuration (`HostConfig` in `generator.go`). -/
structure HostConfig where
  hostname : String
  role : String
  macAddress : String
  ipAddress : String
  iface : String
deriving Repr, DecidableEq

/-- Template data for `agent-config.yaml` (`AgentConfigData` in `generator.go`). -/
structure AgentConfigData where
  clusterName : String
  rendezvousIP : String
  hosts : List HostConfig
  port0 : String
  prefixLength : Nat
  nextHopAddress : String
  dnsServers : List String
deriving Repr, DecidableEq

/-- Modelled from the spec: `utils.ExtractPrefixLength` (package `pkg/utils` is not under
`src/`) parses the prefix length after the slash of the machine-network CIDR. -/
def extractPrefixLength (cidr : String) : Nat :=
  (((cidr.splitOn "/").getD 1 "").toNat?).getD 0

/-- Modelled from the spec: `utils.ExtractNetworkBase` (package `pkg/utils` is not under
`src/`) returns the base address part of the machine-network CIDR, before the slash. -/
def extractNetworkBase (cidr : String) : String :=
  (cidr.splitOn "/").getD 0 ""

/-- Modelled from the spec: `utils.ExtractGateway` (package `pkg/utils` is not under
`src/`) derives the gateway address from the same machine-network CIDR. -/
def extractGateway (cidr : String) : String :=
  String.intercalate "." (((extractNetworkBase cidr).splitOn ".").take 3 ++ ["1"])

/-- Embedding of `generateAgentConfig` (`generator.go` lines 283-304): builds the
`AgentConfigData` value handed to the template. The Go code indexes
`g.Config.Cluster.ControlPlane[0].IP` unconditionally; with an empty control-plane
list that indexing panics, which the embedding renders as `none`. -/
def generateAgentConfigData (cfg : ClusterConfig) : Option AgentConfigData :=
  let hosts :=
    cfg.cluster.controlPlane.map
      (fun cp => HostConfig.mk cp.name "master" cp.mac cp.ip defaultInterface)
    ++ cfg.cluster.worker.map
      (fun w => HostConfig.mk w.name "worker" w.mac w.ip defaultInterface)
  match cfg.cluster.controlPlane with
  | [] => none
  | cp0 :: _ =>
    some
      { clusterName := cfg.clusterInfo.name
        rendezvousIP := cp0.ip
        hosts := hosts
        port0 := defaultInterface
        prefixLength := extractPrefixLength cfg.cluster.network.machineNetwork
        nextHopAddress := extractGateway cfg.cluster.network.machineNetwork
        dnsServers := [cfg.bastion.ip] }

/-- A state-mutating filesystem operation, used to trace the write discipline of
the Go functions (`os.MkdirAll`, `os.WriteFile`/`os.Create`, `os.Rename`, `os.Remove`). -/
inductive FsOp where
  | mkdirAll (path : String)
  | writeFile (path : String) (content : String)
  | rename (src : String) (dst : String)
  | removeFile (path : String)
deriving Repr, DecidableEq

/-- A flat filesystem: an association list from paths to file contents. -/
def Fs : Type := List (String × String)

/-- Look up the content of a path. -/
def fsLookup (fs : Fs) (p : String) : Option String :=
  ((fs : List (String × String)).find? (fun q => q.1 == p)).map (fun q => q.2)

/-- Overwrite (or create) the file at a path. -/
def fsWrite (fs : Fs) (p c : String) : Fs :=
  (fs : List (String × String)).filter (fun q => q.1 != p) ++ [(p, c)]

/-- Remove the file at a path. -/
def fsRemove (fs : Fs) (p : String) : Fs :=
  (fs : List (String × String)).filter (fun q => q.1 != p)

/-- Apply one filesystem operation. `rename` is atomic: it moves the source file
onto the destination in one step (POSIX `rename` semantics used by `os.Rename`). -/
def applyFsOp (fs : Fs) : FsOp → Fs
  | .mkdirAll _ => fs
  | .writeFile p c => fsWrite fs p c
  | .rename src dst =>
    match fsLookup fs src with
    | none => fs
    | some c => fsWrite (fsRemove fs src) dst c
  | .removeFile p => fsRemove fs p

/-- Apply a sequence of filesystem operations, in order. -/
def runFsOps (fs : Fs) (ops : List FsOp) : Fs :=
  ops.foldl applyFsOp fs

/-- Mutation trace of `writeOperatorsToCache` (catalognew): create and fill the
sibling temporary file `CacheFile + ".tmp"`, then `os.Rename` it over `CacheFile`. -/
def writeOperatorsToCacheOps (cacheFile : String) (content : String) : List FsOp :=
  [.writeFile (cacheFile ++ ".tmp") content, .rename (cacheFile ++ ".tmp") cacheFile]

/-- Constant `registryDirName = "registry"` joined under the cluster directory. -/
def registryDirPath (clusterDir : String) : String := clusterDir ++ "/registry"

/-- Path of the merged credential file `registry/merged-auth.json`. -/
def mergedAuthPath (clusterDir : String) : String :=
  registryDirPath clusterDir ++ "/merged-auth.json"

/-- Mutation trace of `createMergedAuthConfig` (`generator.go` lines 546-593) on its
success path: `os.MkdirAll` on the registry directory followed by a direct
`os.WriteFile` of the merged content onto the target path. -/
def createMergedAuthConfigOps (clusterDir : String) (mergedContent : String) : List FsOp :=
  [.mkdirAll (registryDirPath clusterDir), .writeFile (mergedAuthPath clusterDir) mergedContent]

/-- Mutation trace of `executeTemplate` (`generator.go` lines 358-384): the rendered
template is streamed straight into `os.Create(outputPath)`. -/
def executeTemplateOps (outputPath : String) (rendered : String) : List FsOp :=
  [.writeFile outputPath rendered]

/-- A trace contains a direct write to the target path. -/
def writesDirectly (ops : List FsOp) (target : String) : Bool :=
  ops.any (fun op =>
    match op with
    | .writeFile p _ => p == target
    | _ => false)

/-- A trace realizes the write-temp-then-rename discipline for the target: it never
writes the target directly, and it renames a distinct path onto the target after
having written that path. -/
def usesTempRename (ops : List FsOp) (target : String) : Bool :=
  !(writesDirectly ops target) &&
  ops.any (fun op =>
    match op with
    | .rename src dst =>
      dst == target && src != target &&
        ops.any (fun op2 =>
          match op2 with
          | .writeFile p _ => p == src
          | _ => false)
    | _ => false)

/-- Target path of the final agent ISO,
`<clusterDir>/installation/iso/<clusterName>-agent.x86_64.iso` (`GenerateISO`). -/
def targetISOPath (clusterDir clusterName : String) : String :=
  clusterDir ++ "/installation/iso/" ++ clusterName ++ "-agent.x86_64.iso"

/-- A path exists on the filesystem (`os.Stat` succeeding). -/
def fileExistsB (fs : Fs) (p : String) : Bool :=
  (fs : List (String × String)).any (fun q => q.1 == p)

/-- The five pipeline steps invoked by the `GenerateISO` orchestrator, as abstract
state transformers over the filesystem: validation only reads, the remaining steps
may mutate. The orchestrator's control flow is translated from the source; the
step bodies are left universally quantified so that theorems about the gate hold
for every possible behaviour of the steps. -/
structure GenerateSteps where
  validateConfig : Fs → Except String Unit
  createInstallationDirs : Fs → Except String Fs
  generateInstallConfig : Fs → Except String Fs
  generateAgentConfigStep : Fs → Except String Fs
  generateISOFiles : Fs → Except String (String × Fs)

/-- Embedding of the `GenerateISO` orchestrator (`generator.go` lines 139-193):
first the idempotency gate — if the force flag is unset and the target ISO already
exists, return success at once — then the five steps in source order. -/
def generateISO (steps : GenerateSteps) (clusterDir clusterName : String)
    (force : Bool) (fs : Fs) : Except String Fs :=
  let target := targetISOPath clusterDir clusterName
  if !force && fileExistsB fs target then
    .ok fs
  else do
    let _ ← steps.validateConfig fs
    let fs1 ← steps.createInstallationDirs fs
    let fs2 ← steps.generateInstallConfig fs1
    let fs3 ← steps.generateAgentConfigStep fs2
    let r ← steps.generateISOFiles fs3
    .ok r.2

/-- Operator record decoded from the catalog cache (`OperatorInfo` in
`catalognew` and `pkg/save`). -/
structure OperatorInfo where
  name : String
  displayName : String
  defaultChannel : String
  version : String
  description : String
deriving Repr, DecidableEq

/-- State of the per-catalog cache file: absent, or present with its last-write
time (seconds) and its decoded operator records. -/
structure CatalogCacheState where
  cacheFile : Option (Int × List OperatorInfo)
deriving Repr, DecidableEq

/-- Embedding of `isCacheValid` (catalognew): the cache file exists and
`time.Since(ModTime) < 24*time.Hour`, with times in seconds. -/
def isCacheValid (now : Int) (st : CatalogCacheState) : Bool :=
  match st.cacheFile with
  | none => false
  | some (mt, _) => now - mt < 24 * 3600

/-- Embedding of `readAllOperatorsFromCache`: decode the cache file, failing when
it cannot be opened. -/
def readAllOperatorsFromCache (st : CatalogCacheState) : Except String (List OperatorInfo) :=
  match st.cacheFile with
  | none => .error "打开缓存文件失败"
  | some (_, ops) => .ok ops

/-- State-level effect of `writeOperatorsToCache`: the cache file is overwritten
wholesale with the freshly fetched records, stamped with the current time. -/
def writeOperatorsToCacheState (now : Int) (ops : List OperatorInfo) : CatalogCacheState :=
  { cacheFile := some (now, ops) }

/-- Result of `GetAllOperators`: the returned records (or error), the resulting
cache state, and whether the fetch collaborator was invoked. -/
structure GetAllResult where
  operators : Except String (List OperatorInfo)
  state : CatalogCacheState
  fetchInvoked : Bool
deriving Repr

/-- Embedding of `GetAllOperators` (catalognew): serve from the cache when
`isCacheValid`, otherwise invoke the fetch collaborator
(`downloadCatalogUsingMirror`, abstracted as its outcome `fetch`) and persist its
result through `writeOperatorsToCache`. -/
def getAllOperators (now : Int) (st : CatalogCacheState)
    (fetch : Except String (List OperatorInfo)) : GetAllResult :=
  if isCacheValid now st then
    { operators := readAllOperatorsFromCache st, state := st, fetchInvoked := false }
  else
    match fetch with
    | .error e => { operators := .error ("下载目录索引失败: " ++ e), state := st, fetchInvoked := true }
    | .ok ops =>
      { operators := .ok ops, state := writeOperatorsToCacheState now ops, fetchInvoked := true }

/-- Substring containment, `strings.Contains(s, sub)`: `sub` occurs inside `s`. -/
def strContains (s sub : String) : Bool :=
  decide (List.IsInfix sub.toList s.toList)

/-- Exact match used by the resolver loops: `op.Name == q || op.DisplayName == q`. -/
def exactMatch (q : String) (op : OperatorInfo) : Bool :=
  op.name == q || op.displayName == q

/-- The fixed alias table of `getOperatorDefaultChannel` (`pkg/save`). -/
def aliasLookup (q : String) : Option String :=
  if q == "cluster-logging" then some "cluster-logging-operator"
  else if q == "logging" then some "cluster-logging-operator"
  else if q == "local-storage-operator" then some "local-storage-operator"
  else if q == "local-storage" then some "local-storage-operator"
  else if q == "openshift-logging" then some "cluster-logging-operator"
  else none

/-- The fixed vocabulary of domain keywords in `findSimilarOperators`. -/
def domainKeywords : List String :=
  ["logging", "storage", "monitoring", "network", "security", "backup"]

/-- Embedding of `findSimilarOperators` (`pkg/save`): take the first keyword the
lowercased target contains, and collect up to five operator names containing it. -/
def findSimilarOperators (target : String) (ops : List OperatorInfo) : List String :=
  let t := target.toLower
  match domainKeywords.find? (fun kw => strContains t kw) with
  | none => []
  | some kw =>
    (((ops.filter (fun op => strContains op.name.toLower kw)).map (fun op => op.name)).take 5)

/-- Outcome of operator-name resolution, mirroring the return paths of
`getOperatorDefaultChannel`: a resolved record, an ambiguous-match error carrying
all candidate names, a not-found error carrying suggestions, or a bare not-found. -/
inductive ResolveOutcome where
  | found (op : OperatorInfo)
  | ambiguous (candidates : List String)
  | notFoundWithSuggestions (suggestions : List String)
  | notFound
deriving Repr, DecidableEq

/-- Substring candidates of step 3 of the resolver:
`strings.Contains(op.Name, q) || strings.Contains(op.DisplayName, q)`. -/
def substringCandidates (ops : List OperatorInfo) (q : String) : List OperatorInfo :=
  ops.filter (fun op => strContains op.name q || strContains op.displayName q)

/-- Steps 3 and 4 of the resolver, reached when exact and alias matching failed:
a single substring candidate is accepted, several are rejected as ambiguous with
all candidate names, none falls through to keyword suggestions. -/
def substringStep (ops : List OperatorInfo) (q : String) : ResolveOutcome :=
  match substringCandidates ops q with
  | [c] => .found c
  | [] =>
    let s := findSimilarOperators q ops
    if s.isEmpty then .notFound else .notFoundWithSuggestions s
  | cs => .ambiguous (cs.map (fun op => op.name))

/-- Embedding of `getOperatorDefaultChannel` (`pkg/save` README lines 474-554) from
the decoded cache onward: exact match on name or display name first, then the fixed
alias table followed by an exact match of the aliased name, then substring
containment, and finally keyword-based suggestions. -/
def getOperatorDefaultChannel (ops : List OperatorInfo) (q : String) : ResolveOutcome :=
  match ops.find? (exactMatch q) with
  | some op => .found op
  | none =>
    match aliasLookup q with
    | some al =>
      match ops.find? (exactMatch al) with
      | some op => .found op
      | none => substringStep ops q
    | none => substringStep ops q

/-- A directory entry of the oc-mirror workspace as seen by `findLatestResultsDir`:
its name, whether it is a directory, and how many entries it contains. -/
structure DirEntry where
  name : String
  isDir : Bool
  entryCount : Nat
deriving Repr, DecidableEq

/-- Prefix test `strings.HasPrefix(s, pre)`. -/
def strHasPfx (pre s : String) : Bool :=
  pre.toList.isPrefixOf s.toList

/-- Modelled from the spec: `utils.ParseTimestamp` (package `pkg/utils` is not under
`src/`) parses the purely numeric suffix of a results directory name; a
non-numeric or empty suffix fails to parse. -/
def parseTimestamp (s : String) : Option Nat :=
  let cs := s.toList
  if cs ≠ [] ∧ cs.all Char.isDigit then
    some (cs.foldl (fun n c => n * 10 + (c.toNat - 48)) 0)
  else none

/-- The timestamp suffix of a `results-` directory name
(`strings.TrimPrefix(name, "results-")`, parsed). -/
def entrySuffixTs (e : DirEntry) : Option Nat :=
  parseTimestamp (e.name.drop 8)

/-- One iteration of the selection loop in `findLatestResultsDir`: skip
non-directories, names without the `results-` run prefix, empty directories, and
unparsable suffixes; otherwise retain the entry when its timestamp strictly
exceeds the best seen so far. -/
def resultsDirStep (workspaceDir : String) (acc : String × Nat) (e : DirEntry) : String × Nat :=
  if e.isDir && strHasPfx "results-" e.name && e.entryCount != 0 then
    match entrySuffixTs e with
    | some t => if t > acc.2 then (workspaceDir ++ "/" ++ e.name, t) else acc
    | none => acc
  else acc

/-- Embedding of `findLatestResultsDir` (`generator.go` lines 495-525): fold the
selection loop over the directory listing starting from the empty path and
timestamp zero, and fail when no directory was retained. -/
def findLatestResultsDir (workspaceDir : String) (entries : List DirEntry) : Except String String :=
  if (entries.foldl (resultsDirStep workspaceDir) ("", 0)).1 = "" then
    .error "未找到有效的 results 目录"
  else .ok (entries.foldl (resultsDirStep workspaceDir) ("", 0)).1

/-- An entry is eligible for selection: a directory, named with the run prefix,
non-empty, with a parsable timestamp suffix. -/
def eligibleEntry (e : DirEntry) : Bool :=
  e.isDir && strHasPfx "results-" e.name && e.entryCount != 0 && (entrySuffixTs e).isSome

/-- The timestamp of an eligible entry (zero when unparsable). -/
def entryTs (e : DirEntry) : Nat :=
  (entrySuffixTs e).getD 0

/-- Modelled from the spec (refinement reference, not from the source): among the
eligible entries select the maximum timestamp, ties resolved to the first-seen
entry; fail when no eligible entry exists. -/
def latestResultsSpec (workspaceDir : String) (entries : List DirEntry) : Except String String :=
  if (entries.filter eligibleEntry).isEmpty then .error "未找到有效的 results 目录"
  else
    match (entries.filter eligibleEntry).find?
        (fun e => entryTs e == ((entries.filter eligibleEntry).map entryTs).foldl max 0) with
    | some e => .ok (workspaceDir ++ "/" ++ e.name)
    | none => .error "未找到有效的 results 目录"

/-- Running maximum of eligible timestamps starting from a threshold, mirroring the
timestamp component of the selection fold. -/
def maxTsFrom (t0 : Nat) (l : List DirEntry) : Nat :=
  l.foldl (fun t e => if eligibleEntry e then max t (entryTs e) else t) t0

/-- An entry the Go loop can actually retain: eligible and with a positive
timestamp — the loop's best-so-far starts at zero and is replaced only by a
strictly larger timestamp, so a zero timestamp is never retained. -/
def eligiblePosEntry (e : DirEntry) : Bool :=
  eligibleEntry e && decide (0 < entryTs e)

/-- Amended specification-side selection: among the eligible entries with positive
timestamp select the maximum, ties resolved to the first-seen entry; fail when no
such entry exists. -/
def latestResultsSpecPos (workspaceDir : String) (entries : List DirEntry) :
    Except String String :=
  if (entries.filter eligiblePosEntry).isEmpty then .error "未找到有效的 results 目录"
  else
    match (entries.filter eligiblePosEntry).find?
        (fun e => entryTs e == ((entries.filter eligiblePosEntry).map entryTs).foldl max 0) with
    | some e => .ok (workspaceDir ++ "/" ++ e.name)
    | none => .error "未找到有效的 results 目录"

/-- Whitespace trimming on both ends (`strings.TrimSpace`). -/
def trimSpace (s : String) : String :=
  String.mk (((s.toList.dropWhile Char.isWhitespace).reverse.dropWhile Char.isWhitespace).reverse)

/-- One `repositoryDigestMirrors` entry of an ICSP document. -/
structure RDMEntry where
  source : String
  mirrors : List String
deriving Repr, DecidableEq

/-- The normalized text block emitted per mapping entry by `findAndParseICSP`:
`fmt.Sprintf("- mirrors:\n  - %s\n  source: %s", strings.Join(mirrors, "\n  - "), source)`. -/
def mirrorBlock (r : RDMEntry) : String :=
  "- mirrors:\n  - " ++ String.intercalate "\n  - " r.mirrors ++ "\n  source: " ++ r.source

/-- The blocks emitted by the decode loop of `findAndParseICSP`: one block per
entry, scanning documents in stream order and entries in document order. -/
def icspBlocks (docs : List (List RDMEntry)) : List String :=
  docs.flatten.map mirrorBlock

/-- Embedding of the extraction phase of `findAndParseICSP` (`generator.go` lines
440-478) after the YAML stream has been decoded into `docs`: build the
concatenated block text (each block followed by a newline, as written by the
string builder), fail when the builder is empty, else return the trimmed text. -/
def findAndParseICSP (docs : List (List RDMEntry)) : Except String String :=
  let result := String.join ((icspBlocks docs).map (fun b => b ++ "\n"))
  if result.length = 0 then .error "ICSP 文件中未找到有效的镜像源配置"
  else .ok (trimSpace result)

/-- A JSON value sitting in the `auths` map: either an opaque pre-existing value or
the synthesized `auth`/`email` object shape. -/
inductive AuthVal where
  | raw (v : String)
  | entry (auth : String) (email : String)
deriving Repr, DecidableEq

/-- Go map assignment `m[k] = v` on an association list: replace the binding when
the key is present, otherwise append a new binding. -/
def goMapSet (m : List (String × AuthVal)) (k : String) (v : AuthVal) :
    List (String × AuthVal) :=
  if m.any (fun p => p.1 == k) then
    m.map (fun p => if p.1 == k then (k, v) else p)
  else m ++ [(k, v)]

/-- Look up a key in the `auths` map. -/
def authLookup (m : List (String × AuthVal)) (k : String) : Option AuthVal :=
  (m.find? (fun p => p.1 == k)).map (fun p => p.2)

/-- The standard base64 alphabet used by `base64.StdEncoding`. -/
def base64Alphabet : List Char :=
  "ABCDEFGHIJKLMNOPQRSTUVWXYZabcdefghijklmnopqrstuvwxyz0123456789+/".toList

/-- The base64 character for a 6-bit group. -/
def b64Char (n : Nat) : Char :=
  base64Alphabet.getD (n % 64) 'A'

/-- RFC 4648 base64 of a byte sequence, with padding, as produced by
`base64.StdEncoding.EncodeToString`. -/
def base64Encode : List Nat → String
  | [] => ""
  | [b1] =>
    String.mk [b64Char (b1 / 4), b64Char ((b1 % 4) * 16)] ++ "=="
  | [b1, b2] =>
    String.mk [b64Char (b1 / 4), b64Char ((b1 % 4) * 16 + b2 / 16), b64Char ((b2 % 16) * 4)]
      ++ "="
  | b1 :: b2 :: b3 :: rest =>
    String.mk
      [b64Char (b1 / 4), b64Char ((b1 % 4) * 16 + b2 / 16),
       b64Char ((b2 % 16) * 4 + b3 / 64), b64Char (b3 % 64)]
      ++ base64Encode rest

/-- The UTF-8 encoding of one code point. -/
def utf8Bytes (c : Char) : List Nat :=
  let n := c.toNat
  if n < 128 then [n]
  else if n < 2048 then [192 + n / 64, 128 + n % 64]
  else if n < 65536 then [224 + n / 4096, 128 + (n / 64) % 64, 128 + n % 64]
  else [240 + n / 262144, 128 + (n / 4096) % 64, 128 + (n / 64) % 64, 128 + n % 64]

/-- The UTF-8 bytes of a string (`[]byte(s)` in Go). -/
def strBytes (s : String) : List Nat :=
  (s.toList.map utf8Bytes).flatten

/-- The synthesized registry key `registry.<name>.<domain>:8443`. -/
def registryURL (cfg : ClusterConfig) : String :=
  "registry." ++ cfg.clusterInfo.name ++ "." ++ cfg.clusterInfo.domain ++ ":8443"

/-- The synthesized `auths` entry of `createMergedAuthConfig`: base64 of
`<registryUser>:ztesoft123` with the fixed placeholder email. -/
def synthAuthEntry (cfg : ClusterConfig) : AuthVal :=
  .entry (base64Encode (strBytes (cfg.registry.registryUser ++ ":ztesoft123")))
    "user@example.com"

/-- Embedding of the merge step of `createMergedAuthConfig` (`generator.go` lines
546-593): insert the synthesized entry into the parsed `auths` map under the
registry host:port key, by Go map assignment. -/
def createMergedAuths (cfg : ClusterConfig) (baseAuths : List (String × AuthVal)) :
    List (String × AuthVal) :=
  goMapSet baseAuths (registryURL cfg) (synthAuthEntry cfg)

/-- A concrete configuration whose bastion IP differs from its registry IP. -/
def demoConfig : ClusterConfig :=
  { clusterInfo := { name := "demo", domain := "example.com", openShiftVersion := "4.14.0" }
    cluster :=
      { controlPlane := [{ name := "master0", mac := "52:54:00:00:00:01", ip := "192.168.1.11" }]
        worker := [{ name := "worker0", mac := "52:54:00:00:00:02", ip := "192.168.1.21" }]
        network := { machineNetwork := "192.168.1.0/24" } }
    registry := { ip := "192.168.1.3", registryUser := "admin" }
    bastion := { ip := "192.168.1.2" } }

/-- The demo configuration with an empty control-plane list. -/
def emptyCPConfig : ClusterConfig :=
  { demoConfig with cluster := { demoConfig.cluster with controlPlane := [] } }

/-- Equality on `Except` is decidable when it is on both components. -/
instance {ε α : Type} [DecidableEq ε] [DecidableEq α] : DecidableEq (Except ε α) := fun a b =>
  match a, b with
  | .ok x, .ok y => if h : x = y then .isTrue (by rw [h]) else .isFalse (by simp [h])
  | .error x, .error y => if h : x = y then .isTrue (by rw [h]) else .isFalse (by simp [h])
  | .ok _, .error _ => .isFalse (by simp)
  | .error _, .ok _ => .isFalse (by simp)

/-- A pipeline-step record whose every step fails outright; used to witness that
the idempotency gate returns before any step can run. -/
def failingSteps : GenerateSteps :=
  { validateConfig := fun _ => .error "step ran"
    createInstallationDirs := fun _ => .error "step ran"
    generateInstallConfig := fun _ => .error "step ran"
    generateAgentConfigStep := fun _ => .error "step ran"
    generateISOFiles := fun _ => .error "step ran" }

/-- A filesystem already holding the target ISO of cluster `demo` under `/c`. -/
def demoGateFs : Fs :=
  [(targetISOPath "/c" "demo", "iso-bytes")]

/-- One concrete cached operator record. -/
def cachedDemoOps : List OperatorInfo :=
  [{ name := "cluster-logging-operator", displayName := "Red Hat OpenShift Logging",
     defaultChannel := "stable-6.3", version := "", description := "" }]

/-- Records produced by a concrete fetch. -/
def fetchedDemoOps : List OperatorInfo :=
  [{ name := "odf-operator", displayName := "OpenShift Data Foundation",
     defaultChannel := "stable-4.14", version := "", description := "" }]

/-- A cache state written at time zero holding `cachedDemoOps`. -/
def demoCacheState : CatalogCacheState :=
  { cacheFile := some (0, cachedDemoOps) }

/-- Cached records containing the aliased logging operator and one more record. -/
def aliasDemoOps : List OperatorInfo :=
  [{ name := "odf-operator", displayName := "OpenShift Data Foundation",
     defaultChannel := "stable-4.14", version := "", description := "" },
   { name := "cluster-logging-operator", displayName := "Red Hat OpenShift Logging",
     defaultChannel := "stable-6.3", version := "", description := "" }]

/-- Cached records in which the query `"-oper"` matches two names by substring. -/
def ambiguousDemoOps : List OperatorInfo :=
  [{ name := "alpha-operator", displayName := "Alpha", defaultChannel := "stable",
     version := "", description := "" },
   { name := "beta-operator", displayName := "Beta", defaultChannel := "beta",
     version := "", description := "" }]

/-- Concrete mirror-metadata stream: two documents of three and two entries. -/
def demoDocs : List (List RDMEntry) :=
  [[{ source := "registry.redhat.io/a", mirrors := ["registry.demo:8443/a"] },
    { source := "registry.redhat.io/b", mirrors := ["registry.demo:8443/b", "backup:5000/b"] },
    { source := "registry.redhat.io/c", mirrors := ["registry.demo:8443/c"] }],
   [{ source := "quay.io/d", mirrors := ["registry.demo:8443/d"] },
    { source := "quay.io/e", mirrors := ["registry.demo:8443/e"] }]]

/-- A base `auths` map already holding an entry under the synthesized registry key. -/
def preexistingAuths : List (String × AuthVal) :=
  [("registry.demo.example.com:8443", .raw "OLD")]

/-- A base `auths` map with one unrelated entry. -/
def freshBaseAuths : List (String × AuthVal) :=
  [("quay.io", .raw "QQ")]

/-- Directory listing of the spec's selection example: `results-100`, `results-50`
and an empty `results-200`. -/
def demoResultsEntries : List DirEntry :=
  [{ name := "results-100", isDir := true, entryCount := 2 },
   { name := "results-50", isDir := true, entryCount := 1 },
   { name := "results-200", isDir := true, entryCount := 0 }]

/-- A listing holding a single non-empty results directory whose timestamp
suffix parses to zero. -/
def zeroResultsEntries : List DirEntry :=
  [{ name := "results-0", isDir := true, entryCount := 1 }]

/-! ### Shared helper lemmas -/

/-- Appending the `.tmp` suffix changes the path. -/
theorem append_tmp_ne (s : String) : s ++ ".tmp" ≠ s := by
  intro h
  have hl := congrArg String.length h
  rw [String.length_append] at hl
  have h4 : (".tmp" : String).length = 4 := by decide
  omega

/-- Boolean form of `append_tmp_ne`. -/
theorem append_tmp_beq (s : String) : (s ++ ".tmp" == s) = false :=
  beq_eq_false_iff_ne.mpr (append_tmp_ne s)

/-- A search for key `p` finds nothing among the pairs whose key is not `p`. -/
theorem find?_filter_ne_self (l : List (String × String)) (p : String) :
    (l.filter (fun q => q.1 != p)).find? (fun q => q.1 == p) = none := by
  rw [List.find?_eq_none]
  intro x hx
  have := (List.mem_filter.mp hx).2
  simpa using this

/-- Dropping the pairs keyed `p` does not change a search for a different key `q`. -/
theorem find?_filter_ne_other (l : List (String × String)) (p q : String) (h : q ≠ p) :
    (l.filter (fun r => r.1 != p)).find? (fun r => r.1 == q) = l.find? (fun r => r.1 == q) := by
  induction l with
  | nil => simp
  | cons r l ih =>
    have hpq : (p == q) = false := beq_eq_false_iff_ne.mpr (fun hh => h hh.symm)
    by_cases hp : r.1 = p
    · have hq : (r.1 == q) = false := beq_eq_false_iff_ne.mpr (by rw [hp]; exact fun hh => h hh.symm)
      simp [List.filter_cons, hp, List.find?_cons, hq, ih, hpq]
    · by_cases hq : r.1 = q
      · simp [List.filter_cons, hp, List.find?_cons, hq, h]
      · simp [List.filter_cons, hp, List.find?_cons, beq_eq_false_iff_ne.mpr hq, ih]

/-- Looking up the freshly written path returns the new content. -/
theorem fsLookup_fsWrite_self (fs : Fs) (p c : String) :
    fsLookup (fsWrite fs p c) p = some c := by
  unfold fsLookup fsWrite
  rw [List.find?_append, find?_filter_ne_self]
  simp

/-- Writing one path leaves lookups of another path unchanged. -/
theorem fsLookup_fsWrite_ne (fs : Fs) (p c q : String) (h : q ≠ p) :
    fsLookup (fsWrite fs p c) q = fsLookup fs q := by
  unfold fsLookup fsWrite
  rw [List.find?_append, find?_filter_ne_other fs p q h]
  have : ([(p, c)].find? (fun r => r.1 == q)) = none := by
    simp [List.find?_cons, beq_eq_false_iff_ne.mpr (fun hh => h hh.symm)]
  rw [this, Option.or_none]

/-- Removing one path leaves lookups of another path unchanged. -/
theorem fsLookup_fsRemove_ne (fs : Fs) (p q : String) (h : q ≠ p) :
    fsLookup (fsRemove fs p) q = fsLookup fs q := by
  unfold fsLookup fsRemove
  rw [find?_filter_ne_other fs p q h]

/-- Length of a joined list of strings. -/
theorem join_length (l : List String) : (String.join l).length = (l.map String.length).sum := by
  have haux : ∀ (l : List String) (a : String),
      (l.foldl (fun r s => r ++ s) a).length = a.length + (l.map String.length).sum := by
    intro l
    induction l with
    | nil => intro a; simp
    | cons s l ih =>
      intro a
      simp only [List.foldl_cons, List.map_cons, List.sum_cons]
      rw [ih, String.length_append]
      omega
  simpa using haux l ""

/-! ### C1 — name-server list of the agent configuration -/

/-- Counterexample to C1: on a configuration whose bastion and registry addresses
differ, the generated name-server list is not the one-element list containing the
registry host's address. -/
theorem dnsServers_ne_registry_ip :
    (generateAgentConfigData demoConfig).map (fun d => d.dnsServers) ≠
      some [demoConfig.registry.ip] := by
  decide

/-- C1 (amended): for every configuration with at least one control-plane host, the
generated agent/host configuration document's name-server list equals the
one-element list containing the bastion host's address. -/
theorem dnsServers_eq_bastion_ip (cfg : ClusterConfig) (cp : NodeConfig)
    (rest : List NodeConfig) (h : cfg.cluster.controlPlane = cp :: rest) :
    ∃ d, generateAgentConfigData cfg = some d ∧ d.dnsServers = [cfg.bastion.ip] := by
  unfold generateAgentConfigData
  rw [h]
  exact ⟨_, rfl, rfl⟩

/-- Witness for `dnsServers_eq_bastion_ip` at the demo configuration. -/
theorem dnsServers_eq_bastion_ip_witness :
    ∃ d, generateAgentConfigData demoConfig = some d ∧
      d.dnsServers = [demoConfig.bastion.ip] :=
  dnsServers_eq_bastion_ip demoConfig
    { name := "master0", mac := "52:54:00:00:00:01", ip := "192.168.1.11" }
    [] rfl

/-! ### C10 — the agent configuration requires a control-plane host -/

/-- C10: agent/host configuration generation is defined exactly when the
configuration has at least one control-plane host — with an empty control-plane
list the Go code's indexing `ControlPlane[0]` panics, rendered here as `none` —
and on a non-empty list the rendezvous address is the first control-plane host's
address. -/
theorem generateAgentConfig_requires_controlPlane (cfg : ClusterConfig) :
    (generateAgentConfigData cfg = none ↔ cfg.cluster.controlPlane = []) ∧
    (∀ cp rest, cfg.cluster.controlPlane = cp :: rest →
      ∃ d, generateAgentConfigData cfg = some d ∧ d.rendezvousIP = cp.ip) := by
  constructor
  · cases h : cfg.cluster.controlPlane with
    | nil => unfold generateAgentConfigData; rw [h]; simp
    | cons cp rest => unfold generateAgentConfigData; rw [h]; simp
  · intro cp rest h
    unfold generateAgentConfigData
    rw [h]
    exact ⟨_, rfl, rfl⟩

/-- Witness for `generateAgentConfig_requires_controlPlane`: the empty-control-plane
configuration yields `none` (a panic in the Go code), the demo configuration
yields the first control-plane host's address as rendezvous address. -/
theorem generateAgentConfig_requires_controlPlane_witness :
    generateAgentConfigData emptyCPConfig = none ∧
    (∃ d, generateAgentConfigData demoConfig = some d ∧ d.rendezvousIP = "192.168.1.11") :=
  ⟨(generateAgentConfig_requires_controlPlane emptyCPConfig).1.mpr rfl,
   (generateAgentConfig_requires_controlPlane demoConfig).2
     { name := "master0", mac := "52:54:00:00:00:01", ip := "192.168.1.11" } [] rfl⟩

/-! ### C4 — idempotency gate of `GenerateISO` -/

/-- C4: whenever the target final image already exists and the force flag is unset,
`GenerateISO` returns success immediately with the filesystem unchanged, for every
possible behaviour of the validation, resolution and generation steps — so no step
runs and no filesystem mutation happens. -/
theorem generateISO_idempotency_gate (steps : GenerateSteps)
    (clusterDir clusterName : String) (fs : Fs)
    (h : fileExistsB fs (targetISOPath clusterDir clusterName) = true) :
    generateISO steps clusterDir clusterName false fs = .ok fs := by
  unfold generateISO
  simp [h]

/-- Witness for `generateISO_idempotency_gate`: on a filesystem already holding the
target ISO, even a step record whose every step fails is never consulted. -/
theorem generateISO_idempotency_gate_witness :
    fileExistsB demoGateFs (targetISOPath "/c" "demo") = true ∧
    generateISO failingSteps "/c" "demo" false demoGateFs = .ok demoGateFs :=
  ⟨by decide, generateISO_idempotency_gate failingSteps "/c" "demo" demoGateFs (by decide)⟩

/-! ### C2 — write discipline of the state-mutating writes -/

/-- Counterexample to C2: the merged-credential file and a generated configuration
document are written by a direct write to the target path, not by the
write-temporary-then-rename discipline. -/
theorem mergedAuth_write_not_atomic :
    writesDirectly (createMergedAuthConfigOps "/cluster" "mergedJson")
      (mergedAuthPath "/cluster") = true ∧
    usesTempRename (createMergedAuthConfigOps "/cluster" "mergedJson")
      (mergedAuthPath "/cluster") = false ∧
    writesDirectly (executeTemplateOps "/cluster/installation/install-config.yaml" "doc")
      "/cluster/installation/install-config.yaml" = true ∧
    usesTempRename (executeTemplateOps "/cluster/installation/install-config.yaml" "doc")
      "/cluster/installation/install-config.yaml" = false := by
  decide

/-- C2 (amended): of the state-mutating writes, only the per-catalog operator cache
uses write-temporary-then-rename; the merged-credential file and the generated
configuration documents are written directly onto their target paths. -/
theorem write_discipline (cacheFile content clusterDir merged outPath rendered : String) :
    usesTempRename (writeOperatorsToCacheOps cacheFile content) cacheFile = true ∧
    writesDirectly (createMergedAuthConfigOps clusterDir merged)
      (mergedAuthPath clusterDir) = true ∧
    usesTempRename (createMergedAuthConfigOps clusterDir merged)
      (mergedAuthPath clusterDir) = false ∧
    writesDirectly (executeTemplateOps outPath rendered) outPath = true ∧
    usesTempRename (executeTemplateOps outPath rendered) outPath = false := by
  refine ⟨?_, ?_, ?_, ?_, ?_⟩
  · simp [usesTempRename, writesDirectly, writeOperatorsToCacheOps, append_tmp_beq,
      append_tmp_ne]
  · simp [writesDirectly, createMergedAuthConfigOps]
  · simp [usesTempRename, writesDirectly, createMergedAuthConfigOps]
  · simp [writesDirectly, executeTemplateOps]
  · simp [usesTempRename, writesDirectly, executeTemplateOps]

/-! ### C6 — atomicity of the operator-cache write -/

/-- C6: the cache write first fills the sibling temporary file and then renames it
over the target, and after every prefix of that operation sequence — every
interruption point — the visible cache file holds either its prior content or the
complete new content, never a partial document. -/
theorem writeOperatorsToCache_atomic (fs : Fs) (cacheFile content : String) (k : Nat) :
    fsLookup (runFsOps fs ((writeOperatorsToCacheOps cacheFile content).take k)) cacheFile =
      fsLookup fs cacheFile ∨
    fsLookup (runFsOps fs ((writeOperatorsToCacheOps cacheFile content).take k)) cacheFile =
      some content := by
  match k with
  | 0 =>
    left
    simp [writeOperatorsToCacheOps, runFsOps]
  | 1 =>
    left
    simp only [writeOperatorsToCacheOps, List.take_succ_cons, List.take_zero, runFsOps,
      List.foldl_cons, List.foldl_nil, applyFsOp]
    exact fsLookup_fsWrite_ne fs (cacheFile ++ ".tmp") content cacheFile
      (fun h => append_tmp_ne cacheFile h.symm)
  | (n + 2) =>
    right
    simp only [writeOperatorsToCacheOps, List.take_succ_cons, List.take_nil, runFsOps,
      List.foldl_cons, List.foldl_nil, applyFsOp]
    rw [fsLookup_fsWrite_self]
    exact fsLookup_fsWrite_self _ cacheFile content

/-! ### C5 — TTL behaviour of the catalog cache -/

/-- C5: `GetAllOperators` serves the decoded cached records without invoking the
fetch collaborator exactly when the cache file exists and its last-write time is
within 24 hours of now; otherwise the collaborator is invoked, a successful fetch
overwrites the cache wholesale, and an expired cache entry is never what is
returned. -/
theorem getAllOperators_ttl (now : Int) (st : CatalogCacheState)
    (fetch : Except String (List OperatorInfo)) :
    ((getAllOperators now st fetch).fetchInvoked = false ↔ isCacheValid now st = true) ∧
    (isCacheValid now st = true ↔
      ∃ mt ops, st.cacheFile = some (mt, ops) ∧ now - mt < 24 * 3600) ∧
    (∀ mt ops, st.cacheFile = some (mt, ops) → isCacheValid now st = true →
      getAllOperators now st fetch =
        { operators := .ok ops, state := st, fetchInvoked := false }) ∧
    (∀ ops, isCacheValid now st = false → fetch = .ok ops →
      getAllOperators now st fetch =
        { operators := .ok ops, state := writeOperatorsToCacheState now ops,
          fetchInvoked := true }) ∧
    (∀ e, isCacheValid now st = false → fetch = .error e →
      (getAllOperators now st fetch).operators = .error ("下载目录索引失败: " ++ e)) := by
  refine ⟨?_, ?_, ?_, ?_, ?_⟩
  · constructor
    · intro h
      by_contra hv
      rw [Bool.not_eq_true] at hv
      unfold getAllOperators at h
      rw [hv] at h
      simp at h
      cases fetch <;> simp_all
    · intro hv
      unfold getAllOperators
      rw [hv]
      simp
  · unfold isCacheValid
    cases hc : st.cacheFile with
    | none => simp
    | some v =>
      cases v with
      | mk mt ops =>
        constructor
        · intro h
          exact ⟨mt, ops, rfl, by simpa using h⟩
        · rintro ⟨mt2, ops2, heq, hlt⟩
          cases heq
          simpa using hlt
  · intro mt ops hc hv
    unfold getAllOperators
    rw [hv]
    simp only [if_true]
    unfold readAllOperatorsFromCache
    rw [hc]
  · intro ops hv hf
    unfold getAllOperators
    rw [hv, hf]
    simp
  · intro e hv hf
    unfold getAllOperators
    rw [hv, hf]
    simp

/-- Witness for `getAllOperators_ttl`: a cache written 23 hours ago is served
without consulting the collaborator (even one that would fail); a cache written 25
hours ago triggers the fetch, whose result overwrites the cache. -/
theorem getAllOperators_ttl_witness :
    getAllOperators 82800 demoCacheState (.error "collaborator down") =
      { operators := .ok cachedDemoOps, state := demoCacheState, fetchInvoked := false } ∧
    getAllOperators 90000 demoCacheState (.ok fetchedDemoOps) =
      { operators := .ok fetchedDemoOps,
        state := writeOperatorsToCacheState 90000 fetchedDemoOps, fetchInvoked := true } :=
  ⟨(getAllOperators_ttl 82800 demoCacheState (.error "collaborator down")).2.2.1
      0 cachedDemoOps rfl (by decide),
   (getAllOperators_ttl 90000 demoCacheState (.ok fetchedDemoOps)).2.2.2.1
      fetchedDemoOps (by decide) rfl⟩

/-! ### C3 — operator-name resolution order -/

/-- C3: resolution tries exact match first, then the alias table followed by an
exact match of the aliased name, then substring containment; the first success
wins, an exact or aliased hit is never shadowed by a substring match, a unique
substring candidate is accepted, and two or more substring candidates yield an
ambiguous-match outcome enumerating all candidate names. -/
theorem operator_resolution_order (ops : List OperatorInfo) (q : String) :
    (∀ op, ops.find? (exactMatch q) = some op →
      getOperatorDefaultChannel ops q = .found op) ∧
    (∀ al op, ops.find? (exactMatch q) = none → aliasLookup q = some al →
      ops.find? (exactMatch al) = some op →
      getOperatorDefaultChannel ops q = .found op) ∧
    (∀ c, ops.find? (exactMatch q) = none →
      (∀ al, aliasLookup q = some al → ops.find? (exactMatch al) = none) →
      substringCandidates ops q = [c] →
      getOperatorDefaultChannel ops q = .found c) ∧
    (ops.find? (exactMatch q) = none →
      (∀ al, aliasLookup q = some al → ops.find? (exactMatch al) = none) →
      2 ≤ (substringCandidates ops q).length →
      getOperatorDefaultChannel ops q =
        .ambiguous ((substringCandidates ops q).map (fun op => op.name))) := by
  refine ⟨?_, ?_, ?_, ?_⟩
  · intro op h
    simp only [getOperatorDefaultChannel, h]
  · intro al op hnone hal hop
    simp only [getOperatorDefaultChannel, hnone, hal, hop]
  · intro c hnone halmiss hcand
    have hsub : substringStep ops q = .found c := by
      unfold substringStep
      rw [hcand]
    cases hal : aliasLookup q with
    | none => simp only [getOperatorDefaultChannel, hnone, hal]; exact hsub
    | some al =>
      simp only [getOperatorDefaultChannel, hnone, hal, halmiss al hal]
      exact hsub
  · intro hnone halmiss hlen
    have hsub : substringStep ops q =
        .ambiguous ((substringCandidates ops q).map (fun op => op.name)) := by
      unfold substringStep
      match hc : substringCandidates ops q with
      | [] => rw [hc] at hlen; simp at hlen
      | [c] => rw [hc] at hlen; simp at hlen
      | a :: b :: t => rfl
    cases hal : aliasLookup q with
    | none => simp only [getOperatorDefaultChannel, hnone, hal]; exact hsub
    | some al =>
      simp only [getOperatorDefaultChannel, hnone, hal, halmiss al hal]
      exact hsub

/-- Witness for `operator_resolution_order`: an exact hit wins even though another
record matches by substring; `"logging"` resolves through the alias table to the
record named `"cluster-logging-operator"`; and a query with two substring
candidates yields the ambiguous outcome naming both. -/
theorem operator_resolution_order_witness :
    getOperatorDefaultChannel aliasDemoOps "odf-operator" =
      .found { name := "odf-operator", displayName := "OpenShift Data Foundation",
               defaultChannel := "stable-4.14", version := "", description := "" } ∧
    getOperatorDefaultChannel aliasDemoOps "logging" =
      .found { name := "cluster-logging-operator",
               displayName := "Red Hat OpenShift Logging",
               defaultChannel := "stable-6.3", version := "", description := "" } ∧
    getOperatorDefaultChannel ambiguousDemoOps "-oper" =
      .ambiguous ["alpha-operator", "beta-operator"] := by
  refine ⟨?_, ?_, ?_⟩
  · exact (operator_resolution_order aliasDemoOps "odf-operator").1 _ (by decide)
  · exact (operator_resolution_order aliasDemoOps "logging").2.1
      "cluster-logging-operator" _ (by decide) (by decide) (by decide)
  · have h := (operator_resolution_order ambiguousDemoOps "-oper").2.2.2
      (by decide)
      (by intro al hal; rw [show aliasLookup "-oper" = none from by decide] at hal; cases hal)
      (by decide)
    rw [h]
    decide

/-! ### C8 — mirror-metadata extraction -/

/-- C8: extraction emits exactly one normalized block per mapping entry, in
document order then entry order with no deduplication — the block count equals the
total entry count — and zero total entries yields the caller-visible
nothing-found error while a positive count yields success. -/
theorem icsp_extraction (docs : List (List RDMEntry)) :
    icspBlocks docs = (docs.map (fun d => d.map mirrorBlock)).flatten ∧
    (icspBlocks docs).length = (docs.map (fun d => d.length)).sum ∧
    ((docs.map (fun d => d.length)).sum = 0 →
      findAndParseICSP docs = .error "ICSP 文件中未找到有效的镜像源配置") ∧
    (0 < (docs.map (fun d => d.length)).sum → ∃ s, findAndParseICSP docs = .ok s) := by
  have hlen : (icspBlocks docs).length = (docs.map (fun d => d.length)).sum := by
    unfold icspBlocks
    rw [List.length_map, List.length_flatten]
  refine ⟨?_, hlen, ?_, ?_⟩
  · unfold icspBlocks
    simp [List.map_flatten]
  · intro hz
    have hnil : icspBlocks docs = [] := List.length_eq_zero.mp (by rw [hlen, hz])
    unfold findAndParseICSP
    rw [hnil]
    simp [String.join]
  · intro hpos
    have hne : icspBlocks docs ≠ [] := by
      intro hnil
      rw [hnil] at hlen
      simp at hlen
      omega
    match hb : icspBlocks docs with
    | [] => exact absurd hb hne
    | b :: bs =>
      unfold findAndParseICSP
      rw [hb]
      have hjlen : (String.join ((b :: bs).map (fun x => x ++ "\n"))).length =
          (((b :: bs).map (fun x => x ++ "\n")).map String.length).sum := join_length _
      have hpos2 : 0 < (String.join ((b :: bs).map (fun x => x ++ "\n"))).length := by
        rw [hjlen]
        have h1 : ("\n" : String).length = 1 := by decide
        simp only [List.map_cons, List.sum_cons, String.length_append, h1]
        omega
      rw [if_neg (by omega)]
      exact ⟨_, rfl⟩

/-- Witness for `icsp_extraction`: two documents of three and two entries yield
exactly five blocks and a successful extraction; an empty stream yields the
nothing-found error. -/
theorem icsp_extraction_witness :
    (icspBlocks demoDocs).length = 5 ∧
    (∃ s, findAndParseICSP demoDocs = .ok s) ∧
    findAndParseICSP ([] : List (List RDMEntry)) =
      .error "ICSP 文件中未找到有效的镜像源配置" :=
  ⟨by rw [(icsp_extraction demoDocs).2.1]; decide,
   (icsp_extraction demoDocs).2.2.2 (by decide),
   (icsp_extraction []).2.2.1 (by decide)⟩

/-! ### C9 — credential merge -/

/-- Counterexample to C9: when the base `auths` map already holds an entry under
the synthesized registry key, that pre-existing entry is overwritten rather than
preserved, and no entry is added at all. -/
theorem mergedAuths_overwrite_counterexample :
    authLookup preexistingAuths (registryURL demoConfig) = some (.raw "OLD") ∧
    authLookup (createMergedAuths demoConfig preexistingAuths) (registryURL demoConfig) ≠
      some (.raw "OLD") ∧
    (createMergedAuths demoConfig preexistingAuths).length = preexistingAuths.length := by
  decide

/-- Looking up the updated key after an in-place Go map update returns the new value. -/
theorem authLookup_mapped_self (m : List (String × AuthVal)) (k : String) (v : AuthVal)
    (hany : m.any (fun p => p.1 == k) = true) :
    authLookup (m.map (fun p => if p.1 == k then (k, v) else p)) k = some v := by
  induction m with
  | nil => simp at hany
  | cons r m ih =>
    by_cases hr : r.1 = k
    · have hb : (r.1 == k) = true := beq_iff_eq.mpr hr
      unfold authLookup
      rw [List.map_cons, if_pos hb, List.find?_cons]
      simp
    · have hb : (r.1 == k) = false := beq_eq_false_iff_ne.mpr hr
      have hany2 : m.any (fun p => p.1 == k) = true := by
        simpa [List.any_cons, hb] using hany
      have h2 := ih hany2
      unfold authLookup at h2 ⊢
      rw [List.map_cons, if_neg (by rw [hb]; exact Bool.false_ne_true), List.find?_cons]
      simp only [hb]
      exact h2

/-- Looking up the inserted key after a Go map assignment returns the new value. -/
theorem authLookup_goMapSet_self (m : List (String × AuthVal)) (k : String) (v : AuthVal) :
    authLookup (goMapSet m k v) k = some v := by
  unfold goMapSet
  by_cases hany : m.any (fun p => p.1 == k) = true
  · rw [if_pos hany]
    exact authLookup_mapped_self m k v hany
  · rw [if_neg hany]
    unfold authLookup
    rw [List.find?_append]
    have hnone : m.find? (fun p => p.1 == k) = none := by
      rw [List.find?_eq_none]
      intro x hx hbeq
      exact hany (List.any_eq_true.mpr ⟨x, hx, hbeq⟩)
    rw [hnone]
    simp

/-- A Go map assignment preserves membership of every pair with a different key. -/
theorem mem_goMapSet_ne (m : List (String × AuthVal)) (k : String) (v : AuthVal)
    (a : String) (b : AuthVal) (hne : a ≠ k) :
    (a, b) ∈ m ↔ (a, b) ∈ goMapSet m k v := by
  unfold goMapSet
  by_cases hany : m.any (fun p => p.1 == k) = true
  · rw [if_pos hany]
    constructor
    · intro hm
      refine List.mem_map.mpr ⟨(a, b), hm, ?_⟩
      simp [beq_eq_false_iff_ne.mpr hne]
    · intro hm
      obtain ⟨p, hp, heq⟩ := List.mem_map.mp hm
      by_cases hpk : p.1 = k
      · rw [if_pos (by simpa using hpk)] at heq
        exact absurd (congrArg Prod.fst heq).symm hne
      · rw [if_neg (by simpa using hpk)] at heq
        exact heq ▸ hp
  · rw [if_neg hany]
    constructor
    · intro hm
      exact List.mem_append.mpr (Or.inl hm)
    · intro hm
      rcases List.mem_append.mp hm with hm | hm
      · exact hm
      · simp at hm
        exact absurd hm.1 hne

/-- C9 (amended): the merge inserts the synthesized entry under the target internal
registry host:port key; every pre-existing entry under a different key is preserved
unmodified; and when the base map does not already contain the registry key, the
merge adds exactly one entry and keeps every pre-existing entry. -/
theorem createMergedAuths_spec (cfg : ClusterConfig) (base : List (String × AuthVal)) :
    authLookup (createMergedAuths cfg base) (registryURL cfg) = some (synthAuthEntry cfg) ∧
    (∀ k v, k ≠ registryURL cfg →
      ((k, v) ∈ base ↔ (k, v) ∈ createMergedAuths cfg base)) ∧
    (base.any (fun p => p.1 == registryURL cfg) = false →
      (createMergedAuths cfg base).length = base.length + 1 ∧
      ∀ k v, (k, v) ∈ base → (k, v) ∈ createMergedAuths cfg base) := by
  refine ⟨authLookup_goMapSet_self base (registryURL cfg) (synthAuthEntry cfg),
    fun k v hk => mem_goMapSet_ne base (registryURL cfg) (synthAuthEntry cfg) k v hk, ?_⟩
  intro hany
  unfold createMergedAuths goMapSet
  rw [if_neg (by rw [hany]; exact Bool.false_ne_true)]
  constructor
  · simp
  · intro k v hm
    exact List.mem_append.mpr (Or.inl hm)

/-- Witness for `createMergedAuths_spec`: merging into a base map holding one
unrelated entry yields the synthesized entry under the registry key, keeps the
unrelated entry, and grows the map by exactly one. -/
theorem createMergedAuths_spec_witness :
    authLookup (createMergedAuths demoConfig freshBaseAuths) (registryURL demoConfig) =
      some (synthAuthEntry demoConfig) ∧
    ("quay.io", AuthVal.raw "QQ") ∈ createMergedAuths demoConfig freshBaseAuths ∧
    (createMergedAuths demoConfig freshBaseAuths).length = freshBaseAuths.length + 1 :=
  ⟨(createMergedAuths_spec demoConfig freshBaseAuths).1,
   ((createMergedAuths_spec demoConfig freshBaseAuths).2.1 "quay.io" (.raw "QQ")
      (by decide)).mp (by decide),
   ((createMergedAuths_spec demoConfig freshBaseAuths).2.2 (by decide)).1⟩

/-! ### C7 — latest-results selection -/

/-- Unfolding `maxTsFrom` over a cons cell. -/
theorem maxTsFrom_cons (t0 : Nat) (e : DirEntry) (l : List DirEntry) :
    maxTsFrom t0 (e :: l) =
      maxTsFrom (if eligibleEntry e then max t0 (entryTs e) else t0) l := rfl

/-- The running maximum never drops below its starting threshold. -/
theorem le_maxTsFrom (l : List DirEntry) : ∀ t0, t0 ≤ maxTsFrom t0 l := by
  induction l with
  | nil => intro t0; exact Nat.le_refl _
  | cons e l ih =>
    intro t0
    rw [maxTsFrom_cons]
    by_cases he : eligibleEntry e = true
    · rw [if_pos he]
      exact le_trans (Nat.le_max_left _ _) (ih _)
    · rw [if_neg he]
      exact ih t0

/-- Every eligible member's timestamp is bounded by the running maximum. -/
theorem ts_le_maxTsFrom (l : List DirEntry) :
    ∀ t0 e, e ∈ l → eligibleEntry e = true → entryTs e ≤ maxTsFrom t0 l := by
  induction l with
  | nil => intro t0 e he _; cases he
  | cons f l ih =>
    intro t0 e he hel
    rw [maxTsFrom_cons]
    rcases List.mem_cons.mp he with rfl | hmem
    · rw [if_pos hel]
      exact le_trans (Nat.le_max_right _ _) (le_maxTsFrom l _)
    · exact ih _ e hmem hel

/-- The selection loop skips an ineligible entry. -/
theorem resultsDirStep_not_eligible (ws : String) (acc : String × Nat) (e : DirEntry)
    (h : eligibleEntry e = false) : resultsDirStep ws acc e = acc := by
  unfold resultsDirStep
  by_cases hg : (e.isDir && strHasPfx "results-" e.name && e.entryCount != 0) = true
  · rw [if_pos hg]
    have hs : (entrySuffixTs e).isSome = false := by
      unfold eligibleEntry at h
      simpa [hg] using h
    cases hst : entrySuffixTs e with
    | none => rfl
    | some t => rw [hst] at hs; simp at hs
  · rw [if_neg hg]

/-- The selection loop retains an eligible entry exactly when its timestamp
strictly exceeds the best seen so far. -/
theorem resultsDirStep_eligible (ws : String) (acc : String × Nat) (e : DirEntry)
    (h : eligibleEntry e = true) :
    resultsDirStep ws acc e =
      if acc.2 < entryTs e then (ws ++ "/" ++ e.name, entryTs e) else acc := by
  unfold resultsDirStep
  unfold eligibleEntry at h
  rw [Bool.and_eq_true] at h
  obtain ⟨hg, hs⟩ := h
  rw [if_pos hg]
  obtain ⟨t, hst⟩ := Option.isSome_iff_exists.mp hs
  rw [hst]
  have hts : entryTs e = t := by unfold entryTs; rw [hst]; rfl
  rw [hts]

/-- The selection loop never moves off an accumulator that already dominates
every eligible timestamp. -/
theorem resultsFold_const (ws : String) (l : List DirEntry) (d0 : String) (t0 : Nat)
    (h : ∀ e ∈ l, eligibleEntry e = true → entryTs e ≤ t0) :
    l.foldl (resultsDirStep ws) (d0, t0) = (d0, t0) := by
  induction l with
  | nil => rfl
  | cons e l ih =>
    rw [List.foldl_cons]
    have hstep : resultsDirStep ws (d0, t0) e = (d0, t0) := by
      by_cases he : eligibleEntry e = true
      · rw [resultsDirStep_eligible ws (d0, t0) e he]
        exact if_neg (Nat.not_lt.mpr (h e (List.mem_cons_self e l) he))
      · exact resultsDirStep_not_eligible ws (d0, t0) e (eq_false_of_ne_true he)
    rw [hstep]
    exact ih (fun f hf hel => h f (List.mem_cons_of_mem e hf) hel)

/-- When some eligible timestamp strictly exceeds the threshold, the selection
loop ends on the first entry attaining the running maximum. -/
theorem resultsFold_max (ws : String) (l : List DirEntry) :
    ∀ (d0 : String) (t0 : Nat), t0 < maxTsFrom t0 l →
      ∃ f, (l.filter eligibleEntry).find? (fun e => entryTs e == maxTsFrom t0 l) = some f ∧
        l.foldl (resultsDirStep ws) (d0, t0) = (ws ++ "/" ++ f.name, maxTsFrom t0 l) := by
  induction l with
  | nil => intro d0 t0 h; exact absurd h (lt_irrefl _)
  | cons e l ih =>
    intro d0 t0 h
    by_cases he : eligibleEntry e = true
    · have hm : maxTsFrom t0 (e :: l) = maxTsFrom (max t0 (entryTs e)) l := by
        rw [maxTsFrom_cons, if_pos he]
      rw [List.foldl_cons, resultsDirStep_eligible ws (d0, t0) e he]
      by_cases hlt : t0 < entryTs e
      · rw [if_pos hlt]
        have hmax : max t0 (entryTs e) = entryTs e := Nat.max_eq_right (le_of_lt hlt)
        rw [hmax] at hm
        have hle : entryTs e ≤ maxTsFrom (entryTs e) l := le_maxTsFrom l (entryTs e)
        rcases Nat.lt_or_ge (entryTs e) (maxTsFrom (entryTs e) l) with hlt2 | hge
        · obtain ⟨f, hf, hfold⟩ := ih (ws ++ "/" ++ e.name) (entryTs e) hlt2
          rw [hm]
          refine ⟨f, ?_, hfold⟩
          rw [List.filter_cons_of_pos he, List.find?_cons]
          have hne : (entryTs e == maxTsFrom (entryTs e) l) = false :=
            beq_eq_false_iff_ne.mpr (Nat.ne_of_lt hlt2)
          simp only [hne]
          exact hf
        · have heq : maxTsFrom (entryTs e) l = entryTs e := le_antisymm hge hle
          rw [hm, heq]
          refine ⟨e, ?_, ?_⟩
          · rw [List.filter_cons_of_pos he, List.find?_cons]
            simp
          · apply resultsFold_const ws l _ (entryTs e)
            intro f hf hel
            have hb := ts_le_maxTsFrom l (entryTs e) f hf hel
            rw [heq] at hb
            exact hb
      · rw [if_neg hlt]
        have hmax : max t0 (entryTs e) = t0 := Nat.max_eq_left (Nat.not_lt.mp hlt)
        rw [hmax] at hm
        rw [hm] at h ⊢
        obtain ⟨f, hf, hfold⟩ := ih d0 t0 h
        refine ⟨f, ?_, hfold⟩
        rw [List.filter_cons_of_pos he, List.find?_cons]
        have hne : (entryTs e == maxTsFrom t0 l) = false :=
          beq_eq_false_iff_ne.mpr
            (Nat.ne_of_lt (lt_of_le_of_lt (Nat.not_lt.mp hlt) h))
        simp only [hne]
        exact hf
    · have he' : eligibleEntry e = false := eq_false_of_ne_true he
      have hm : maxTsFrom t0 (e :: l) = maxTsFrom t0 l := by
        rw [maxTsFrom_cons, if_neg he]
      rw [hm] at h ⊢
      rw [List.foldl_cons, resultsDirStep_not_eligible ws (d0, t0) e he',
        List.filter_cons_of_neg (by rw [he']; exact Bool.false_ne_true)]
      exact ih d0 t0 h

/-- The running maximum equals the fold of `max` over the eligible timestamps. -/
theorem maxTsFrom_eq_filterfold (l : List DirEntry) :
    ∀ t0, maxTsFrom t0 l = ((l.filter eligibleEntry).map entryTs).foldl max t0 := by
  induction l with
  | nil => intro t0; rfl
  | cons e l ih =>
    intro t0
    rw [maxTsFrom_cons]
    by_cases he : eligibleEntry e = true
    · rw [if_pos he, List.filter_cons_of_pos he, List.map_cons, List.foldl_cons]
      exact ih _
    · rw [if_neg he, List.filter_cons_of_neg (by rw [eq_false_of_ne_true he]; exact Bool.false_ne_true)]
      exact ih t0

/-- A workspace-joined path is never the empty string. -/
theorem path_ne_empty (ws n : String) : ws ++ "/" ++ n ≠ "" := by
  intro h
  have hl := congrArg String.length h
  rw [String.length_append, String.length_append] at hl
  have h1 : ("/" : String).length = 1 := by decide
  have h0 : ("" : String).length = 0 := by decide
  rw [h1, h0] at hl
  omega

/-- A search finds the same first hit in two filtered views when every element of
the looser filter is either in the stricter filter too or cannot satisfy the
search predicate. -/
theorem find?_filter_congr {α : Type} (p q q' : α → Bool)
    (hqq : ∀ x, q' x = true → q x = true)
    (hpq : ∀ x, p x = true → q x = true → q' x = true) :
    ∀ l : List α, (l.filter q).find? p = (l.filter q').find? p := by
  intro l
  induction l with
  | nil => rfl
  | cons x l ih =>
    by_cases hq' : q' x = true
    · have hq := hqq x hq'
      rw [List.filter_cons_of_pos hq, List.filter_cons_of_pos hq',
        List.find?_cons, List.find?_cons]
      cases hp : p x
      · simp only [ih]
      · rfl
    · by_cases hq : q x = true
      · have hp : p x = false := by
          cases hpx : p x
          · rfl
          · exact absurd (hpq x hpx hq) hq'
        rw [List.filter_cons_of_pos hq, List.filter_cons_of_neg hq', List.find?_cons]
        simp only [hp]
        exact ih
      · rw [List.filter_cons_of_neg hq, List.filter_cons_of_neg hq']
        exact ih

/-- Eligible entries dropped by the positivity restriction carry timestamp zero,
so they do not change the fold of `max` over the timestamps. -/
theorem foldmax_filter_pos (l : List DirEntry) :
    ∀ t0, ((l.filter eligibleEntry).map entryTs).foldl max t0 =
      ((l.filter eligiblePosEntry).map entryTs).foldl max t0 := by
  induction l with
  | nil => intro t0; rfl
  | cons e l ih =>
    intro t0
    by_cases hep : eligiblePosEntry e = true
    · have he : eligibleEntry e = true := by
        unfold eligiblePosEntry at hep
        rw [Bool.and_eq_true] at hep
        exact hep.1
      rw [List.filter_cons_of_pos he, List.filter_cons_of_pos hep, List.map_cons,
        List.map_cons, List.foldl_cons, List.foldl_cons]
      exact ih _
    · by_cases he : eligibleEntry e = true
      · have hz : entryTs e = 0 := by
          by_contra hnz
          exact hep (by
            unfold eligiblePosEntry
            rw [he, decide_eq_true (Nat.pos_of_ne_zero hnz)]
            rfl)
        rw [List.filter_cons_of_pos he, List.filter_cons_of_neg hep, List.map_cons,
          List.foldl_cons, hz, Nat.max_zero]
        exact ih t0
      · have hep2 : ¬eligiblePosEntry e = true := hep
        rw [List.filter_cons_of_neg he, List.filter_cons_of_neg hep2]
        exact ih t0

/-- Counterexample to C7: the listing holding the single non-empty `results-0` has
an eligible directory (run prefix, non-empty, parsable timestamp suffix), and the
claim's selection policy picks it, yet the operation fails — the loop's
best-so-far starts at zero and is replaced only by strictly larger timestamps. -/
theorem findLatestResultsDir_zero_counterexample :
    eligibleEntry { name := "results-0", isDir := true, entryCount := 1 } = true ∧
    latestResultsSpec "ws" zeroResultsEntries = .ok "ws/results-0" ∧
    findLatestResultsDir "ws" zeroResultsEntries = .error "未找到有效的 results 目录" := by
  decide

/-- C7 (amended): latest-results selection considers only non-empty `results-`
subdirectories with a parsable timestamp suffix and retains only positive
timestamps; among those the maximum timestamp wins with ties resolved to the
first-seen directory, an empty directory is disqualified even with a larger
timestamp, and with no eligible positive-timestamp directory — including a sole
`results-0` — the operation fails. Stated as unconditional equality with the
amended specification-side selection function. -/
theorem findLatestResultsDir_selects_positive_max (ws : String) (entries : List DirEntry) :
    findLatestResultsDir ws entries = latestResultsSpecPos ws entries := by
  unfold findLatestResultsDir latestResultsSpecPos
  by_cases hemp : (entries.filter eligiblePosEntry).isEmpty = true
  · have hel : entries.filter eligiblePosEntry = [] := List.isEmpty_iff.mp hemp
    have hfold : entries.foldl (resultsDirStep ws) ("", 0) = ("", 0) := by
      apply resultsFold_const
      intro e he hele
      by_contra hgt
      have hpos : 0 < entryTs e := Nat.not_le.mp hgt
      have hep : eligiblePosEntry e = true := by
        unfold eligiblePosEntry
        rw [hele, decide_eq_true hpos]
        rfl
      have hmem : e ∈ entries.filter eligiblePosEntry := List.mem_filter.mpr ⟨he, hep⟩
      rw [hel] at hmem
      cases hmem
    rw [hfold, if_pos hemp]
    simp
  · have hne : entries.filter eligiblePosEntry ≠ [] := by
      intro hh
      rw [hh] at hemp
      exact hemp rfl
    obtain ⟨f0, hmem⟩ := List.exists_mem_of_ne_nil _ hne
    have hf0ep : eligiblePosEntry f0 = true := (List.mem_filter.mp hmem).2
    have hf0mem : f0 ∈ entries := (List.mem_filter.mp hmem).1
    have hf0parts := hf0ep
    rw [eligiblePosEntry, Bool.and_eq_true] at hf0parts
    have hf0el : eligibleEntry f0 = true := hf0parts.1
    have hf0pos : 0 < entryTs f0 := of_decide_eq_true hf0parts.2
    have hM : 0 < maxTsFrom 0 entries :=
      lt_of_lt_of_le hf0pos (ts_le_maxTsFrom entries 0 f0 hf0mem hf0el)
    obtain ⟨f, hf, hfold⟩ := resultsFold_max ws entries "" 0 hM
    rw [hfold]
    rw [if_neg (path_ne_empty ws f.name)]
    rw [if_neg hemp]
    rw [← foldmax_filter_pos entries 0, ← maxTsFrom_eq_filterfold entries 0]
    have hfind : (entries.filter eligibleEntry).find?
          (fun e => entryTs e == maxTsFrom 0 entries) =
        (entries.filter eligiblePosEntry).find?
          (fun e => entryTs e == maxTsFrom 0 entries) := by
      apply find?_filter_congr
      · intro x hx
        rw [eligiblePosEntry, Bool.and_eq_true] at hx
        exact hx.1
      · intro x hp hq
        have hx : entryTs x = maxTsFrom 0 entries := beq_iff_eq.mp hp
        unfold eligiblePosEntry
        rw [hq, decide_eq_true (hx ▸ hM)]
        rfl
    rw [← hfind, hf]

end Ocpack
